import Mathlib

/-!
Verification development for the Kubera recurring-transaction subsystem.

The repository's frontend (TypeScript/React) is embedded directly from the
source files under `src/`.  The backend scheduler (recurrence calculator and
due-processing engine) is not present in the source tree; following the
specification document, those components are modelled from the spec's words
(each such definition carries a doc comment starting `Modelled from the
spec:`).
-/

/-- Calendar date: year, month (1-12), day (1-31). The spec's scheduler
"operates on calendar dates, not instants". -/
structure Date where
  year : Nat
  month : Nat
  day : Nat
deriving DecidableEq, Repr

/-- Gregorian leap-year rule. -/
def isLeapYear (y : Nat) : Bool :=
  y % 4 == 0 && (y % 100 != 0 || y % 400 == 0)

/-- Number of days in a month of a given year. -/
def daysInMonth (y m : Nat) : Nat :=
  if m = 2 then (if isLeapYear y then 29 else 28)
  else if m = 4 ∨ m = 6 ∨ m = 9 ∨ m = 11 then 30
  else 31

/-- A date is a real calendar date: month in 1..12, day in 1..daysInMonth. -/
def Date.valid (d : Date) : Prop :=
  1 ≤ d.month ∧ d.month ≤ 12 ∧ 1 ≤ d.day ∧ d.day ≤ daysInMonth d.year d.month

instance (d : Date) : Decidable d.valid :=
  inferInstanceAs (Decidable (1 ≤ d.month ∧ d.month ≤ 12 ∧ 1 ≤ d.day ∧
    d.day ≤ daysInMonth d.year d.month))

/-- Strict chronological order on calendar dates (lexicographic on
year, month, day). -/
def Date.lt (a b : Date) : Prop :=
  a.year < b.year ∨
    (a.year = b.year ∧ (a.month < b.month ∨ (a.month = b.month ∧ a.day < b.day)))

instance (a b : Date) : Decidable (Date.lt a b) :=
  inferInstanceAs (Decidable (a.year < b.year ∨
    (a.year = b.year ∧ (a.month < b.month ∨ (a.month = b.month ∧ a.day < b.day)))))

/-- Chronological order, allowing equality. -/
def Date.le (a b : Date) : Prop :=
  Date.lt a b ∨ a = b

instance (a b : Date) : Decidable (Date.le a b) :=
  inferInstanceAs (Decidable (Date.lt a b ∨ a = b))

/-- Linear rank of a date, strictly monotone in chronological order over
valid dates (372 = 12 * 31). Used to bound recursion depth. -/
def rank (d : Date) : Nat :=
  372 * d.year + 31 * d.month + d.day

theorem daysInMonth_le (y m : Nat) : daysInMonth y m ≤ 31 := by
  unfold daysInMonth
  split
  · split <;> omega
  · split <;> omega

theorem daysInMonth_ge (y m : Nat) : 28 ≤ daysInMonth y m := by
  unfold daysInMonth
  split
  · split <;> omega
  · split <;> omega

theorem Date.lt_trans {a b c : Date} (h1 : Date.lt a b) (h2 : Date.lt b c) :
    Date.lt a c := by
  unfold Date.lt at h1 h2 ⊢
  omega

theorem rank_lt_of_lt {a b : Date} (ha : a.valid) (hb : b.valid)
    (h : Date.lt a b) : rank a < rank b := by
  obtain ⟨ha1, ha2, ha3, ha4⟩ := ha
  obtain ⟨hb1, hb2, hb3, hb4⟩ := hb
  have ha5 : a.day ≤ 31 := le_trans ha4 (daysInMonth_le a.year a.month)
  have hb5 : b.day ≤ 31 := le_trans hb4 (daysInMonth_le b.year b.month)
  unfold Date.lt at h
  unfold rank
  omega

theorem rank_le_of_le {a b : Date} (ha : a.valid) (hb : b.valid)
    (h : Date.le a b) : rank a ≤ rank b := by
  rcases h with h | rfl
  · exact le_of_lt (rank_lt_of_lt ha hb h)
  · exact le_refl _

/-- Modelled from the spec: the day-after step used for the `daily` (and,
iterated, `weekly`/`biweekly`) frequencies; rolls over month and year ends. -/
def addOneDay (d : Date) : Date :=
  if d.day < daysInMonth d.year d.month then ⟨d.year, d.month, d.day + 1⟩
  else if d.month < 12 then ⟨d.year, d.month + 1, 1⟩
  else ⟨d.year + 1, 1, 1⟩

/-- Advance a date by `n` days. -/
def addDays (d : Date) : Nat → Date
  | 0 => d
  | n + 1 => addDays (addOneDay d) n

/-- Modelled from the spec: advance by `k` calendar months, with day-of-month
clamped to the last valid day of the target month. -/
def addMonths (d : Date) (k : Nat) : Date :=
  ⟨d.year + (d.month - 1 + k) / 12,
   (d.month - 1 + k) % 12 + 1,
   min d.day (daysInMonth (d.year + (d.month - 1 + k) / 12) ((d.month - 1 + k) % 12 + 1))⟩

/-- Modelled from the spec: advance by one calendar year, with Feb 29 anchors
clamped to Feb 28 on non-leap target years. -/
def addOneYear (d : Date) : Date :=
  ⟨d.year + 1, d.month, min d.day (daysInMonth (d.year + 1) d.month)⟩

theorem lt_addOneDay (d : Date) : Date.lt d (addOneDay d) := by
  unfold addOneDay Date.lt
  split
  · dsimp only
    omega
  · split <;> dsimp only <;> omega

theorem valid_addOneDay {d : Date} (h : d.valid) : (addOneDay d).valid := by
  obtain ⟨h1, h2, h3, h4⟩ := h
  unfold addOneDay Date.valid
  split
  · dsimp only
    omega
  · split
    · dsimp only
      have := daysInMonth_ge d.year (d.month + 1)
      omega
    · dsimp only
      have := daysInMonth_ge (d.year + 1) 1
      omega

theorem lt_addDays (d : Date) : ∀ n, Date.lt d (addDays d (n + 1))
  | 0 => lt_addOneDay d
  | n + 1 => Date.lt_trans (lt_addOneDay d) (lt_addDays (addOneDay d) n)

theorem valid_addDays {d : Date} (h : d.valid) : ∀ n, (addDays d n).valid
  | 0 => h
  | n + 1 => valid_addDays (valid_addOneDay h) n

theorem lt_addMonths (d : Date) (k : Nat) (hk : 1 ≤ k) (hk12 : k ≤ 11) :
    Date.lt d (addMonths d k) := by
  unfold addMonths Date.lt
  dsimp only
  omega

theorem valid_addMonths {d : Date} (h : d.valid) (k : Nat) :
    (addMonths d k).valid := by
  obtain ⟨h1, h2, h3, h4⟩ := h
  unfold addMonths Date.valid
  dsimp only
  have := daysInMonth_ge (d.year + (d.month - 1 + k) / 12) ((d.month - 1 + k) % 12 + 1)
  omega

theorem lt_addOneYear (d : Date) : Date.lt d (addOneYear d) := by
  unfold addOneYear Date.lt
  dsimp only
  omega

theorem valid_addOneYear {d : Date} (h : d.valid) : (addOneYear d).valid := by
  obtain ⟨h1, h2, h3, h4⟩ := h
  unfold addOneYear Date.valid
  dsimp only
  have := daysInMonth_ge (d.year + 1) d.month
  omega

/-- The six schedule frequencies, embedded from the `FrequencyType` enum in
`src/frontend/src/types/recurringTransaction.ts` (values daily, weekly,
biweekly, monthly, quarterly, yearly). -/
inductive FrequencyType
  | daily
  | weekly
  | biweekly
  | monthly
  | quarterly
  | yearly
deriving DecidableEq, Repr

/-- String value of each `FrequencyType` enum member, as declared in the
source. -/
def FrequencyType.value : FrequencyType → String
  | .daily => "daily"
  | .weekly => "weekly"
  | .biweekly => "biweekly"
  | .monthly => "monthly"
  | .quarterly => "quarterly"
  | .yearly => "yearly"

/-- Modelled from the spec: `nextOccurrence(anchor, frequency)` of the
Recurrence Calculator (spec 4.1); the backend implementation is not in the
source tree. daily adds 1 day, weekly 7, biweekly 14; monthly and quarterly
advance 1 and 3 calendar months with end-of-month clamping; yearly advances
one year with Feb 29 clamping. -/
def nextOccurrence (d : Date) : FrequencyType → Date
  | .daily => addDays d 1
  | .weekly => addDays d 7
  | .biweekly => addDays d 14
  | .monthly => addMonths d 1
  | .quarterly => addMonths d 3
  | .yearly => addOneYear d

theorem Date.lt_next (d : Date) (f : FrequencyType) :
    Date.lt d (nextOccurrence d f) := by
  cases f
  · exact lt_addDays d 0
  · exact lt_addDays d 6
  · exact lt_addDays d 13
  · exact lt_addMonths d 1 (by omega) (by omega)
  · exact lt_addMonths d 3 (by omega) (by omega)
  · exact lt_addOneYear d

theorem valid_next {d : Date} (h : d.valid) (f : FrequencyType) :
    (nextOccurrence d f).valid := by
  cases f
  · exact valid_addDays h 1
  · exact valid_addDays h 7
  · exact valid_addDays h 14
  · exact valid_addMonths h 1
  · exact valid_addMonths h 3
  · exact valid_addOneYear h

theorem rank_lt_next {d : Date} (h : d.valid) (f : FrequencyType) :
    rank d < rank (nextOccurrence d f) :=
  rank_lt_of_lt h (valid_next h f) (Date.lt_next d f)

/-- Modelled from the spec: a candidate occurrence is within the optional
`endDate` bound ("no occurrences are generated strictly after this date"). -/
def withinEnd (cur : Date) : Option Date → Prop
  | none => True
  | some e => Date.le cur e

instance (cur : Date) : (e : Option Date) → Decidable (withinEnd cur e)
  | none => inferInstanceAs (Decidable True)
  | some e => inferInstanceAs (Decidable (Date.le cur e))

/-- Modelled from the spec: a candidate occurrence is due — on or before
`asOf` and within the `endDate` bound (spec 4.1, `occurrencesDue`). -/
def dueOk (cur : Date) (endDate : Option Date) (asOf : Date) : Prop :=
  Date.le cur asOf ∧ withinEnd cur endDate

instance (cur : Date) (endDate : Option Date) (asOf : Date) :
    Decidable (dueOk cur endDate asOf) :=
  inferInstanceAs (Decidable (Date.le cur asOf ∧ withinEnd cur endDate))

/-- Fuel-bounded generation loop of `occurrencesDue`: emit the current
candidate while it is due, then step by `nextOccurrence`. The fuel passed by
`occurrencesDue` is always sufficient for valid dates (`rank` strictly
increases each step). -/
def dueFromAux (f : FrequencyType) (endDate : Option Date) (asOf : Date) :
    Nat → Date → List Date
  | 0, _ => []
  | fuel + 1, cur =>
    if dueOk cur endDate asOf then
      cur :: dueFromAux f endDate asOf fuel (nextOccurrence cur f)
    else []

/-- Modelled from the spec: the first candidate of `occurrencesDue` — the
`startDate` when nothing was materialized yet, otherwise the occurrence after
`lastMaterialized` (spec 4.1). -/
def firstCandidate (lastMaterialized : Option Date) (startDate : Date)
    (f : FrequencyType) : Date :=
  match lastMaterialized with
  | none => startDate
  | some d => nextOccurrence d f

/-- Modelled from the spec: `occurrencesDue(lastMaterialized, startDate,
frequency, endDate, asOf)` (spec 4.1) — every occurrence date that is ≤ asOf
and within the end bound, in strictly increasing order, by repeated
application of `nextOccurrence`. -/
def occurrencesDue (lastMaterialized : Option Date) (startDate : Date)
    (f : FrequencyType) (endDate : Option Date) (asOf : Date) : List Date :=
  dueFromAux f endDate asOf
    (rank asOf + 1 - rank (firstCandidate lastMaterialized startDate f))
    (firstCandidate lastMaterialized startDate f)

theorem dueFromAux_nil_of_not_ok {f : FrequencyType} {endDate : Option Date}
    {asOf cur : Date} (h : ¬ dueOk cur endDate asOf) (fuel : Nat) :
    dueFromAux f endDate asOf fuel cur = [] := by
  cases fuel with
  | zero => rfl
  | succ n => simp only [dueFromAux, if_neg h]

theorem dueFromAux_last {f : FrequencyType} {endDate : Option Date}
    {asOf : Date} (hAsOf : asOf.valid) :
    ∀ fuel cur, cur.valid → rank asOf + 1 - rank cur ≤ fuel →
    ∀ l d, dueFromAux f endDate asOf fuel cur = l ++ [d] →
    d.valid ∧ ¬ dueOk (nextOccurrence d f) endDate asOf := by
  intro fuel
  induction fuel with
  | zero =>
    intro cur hv hfuel l d h
    simp only [dueFromAux] at h
    exact absurd h.symm (List.append_ne_nil_of_right_ne_nil l (by simp))
  | succ n ih =>
    intro cur hv hfuel l d h
    by_cases hok : dueOk cur endDate asOf
    · rw [dueFromAux, if_pos hok] at h
      cases l with
      | nil =>
        rw [List.nil_append] at h
        have hd : cur = d := (List.cons.injEq _ _ _ _ ▸ h).1
        have hrest : dueFromAux f endDate asOf n (nextOccurrence cur f) = [] :=
          (List.cons.injEq _ _ _ _ ▸ h).2
        subst hd
        refine ⟨hv, ?_⟩
        intro hok2
        have hvn : (nextOccurrence cur f).valid := valid_next hv f
        have hrk : rank cur < rank (nextOccurrence cur f) := rank_lt_next hv f
        have hle : rank (nextOccurrence cur f) ≤ rank asOf :=
          rank_le_of_le hvn hAsOf hok2.1
        have hn : 1 ≤ n := by omega
        cases n with
        | zero => omega
        | succ m =>
          rw [dueFromAux, if_pos hok2] at hrest
          exact absurd hrest (by simp)
      | cons x l' =>
        rw [List.cons_append] at h
        have hx : cur = x := (List.cons.injEq _ _ _ _ ▸ h).1
        have hrest : dueFromAux f endDate asOf n (nextOccurrence cur f) = l' ++ [d] :=
          (List.cons.injEq _ _ _ _ ▸ h).2
        have hvn : (nextOccurrence cur f).valid := valid_next hv f
        have hrk : rank cur < rank (nextOccurrence cur f) := rank_lt_next hv f
        exact ih (nextOccurrence cur f) hvn (by omega) l' d hrest
    · rw [dueFromAux, if_neg hok] at h
      exact absurd h.symm (List.append_ne_nil_of_right_ne_nil l (by simp))

/-- Validity of the first candidate of a schedule with valid bookkeeping. -/
theorem valid_firstCandidate {lm : Option Date} {s : Date}
    (hs : s.valid) (hlm : ∀ d, lm = some d → d.valid) (f : FrequencyType) :
    (firstCandidate lm s f).valid := by
  cases lm with
  | none => exact hs
  | some d => exact valid_next (hlm d rfl) f

theorem occurrencesDue_last {lm : Option Date} {s : Date} {f : FrequencyType}
    {endDate : Option Date} {asOf : Date} (hAsOf : asOf.valid)
    (hs : s.valid) (hlm : ∀ d, lm = some d → d.valid)
    {l : List Date} {d : Date}
    (h : occurrencesDue lm s f endDate asOf = l ++ [d]) :
    d.valid ∧ ¬ dueOk (nextOccurrence d f) endDate asOf :=
  dueFromAux_last hAsOf _ _ (valid_firstCandidate hs hlm f) (le_refl _) l d h

/-- After the last due occurrence `d`, a rerun starting from
`lastMaterialized = d` yields no further occurrences. -/
theorem occurrencesDue_after_last {lm : Option Date} {s s' : Date}
    {f : FrequencyType} {endDate : Option Date} {asOf : Date}
    (hAsOf : asOf.valid) (hs : s.valid) (hlm : ∀ e, lm = some e → e.valid)
    {l : List Date} {d : Date}
    (h : occurrencesDue lm s f endDate asOf = l ++ [d]) :
    occurrencesDue (some d) s' f endDate asOf = [] := by
  have hlast := occurrencesDue_last hAsOf hs hlm h
  exact dueFromAux_nil_of_not_ok hlast.2 _

/-- Modelled from the spec: the persisted `RecurringTransactionSchedule`
entity (spec 3): schedule parameters plus execution bookkeeping. -/
structure Schedule where
  id : Nat
  amount : Int
  payee : String
  accountRef : Nat
  categoryRef : Nat
  frequency : FrequencyType
  startDate : Date
  endDate : Option Date
  lastMaterialized : Option Date
  nextExecutionDate : Option Date
  isActive : Bool
deriving DecidableEq, Repr

/-- Modelled from the spec: a materialized Transaction row; it "carries an
implicit link back to the schedule occurrence it fulfills (date + schedule
id)" (spec 3). -/
structure Tx where
  scheduleId : Nat
  accountRef : Nat
  categoryRef : Nat
  amount : Int
  payee : String
  isIncome : Bool
  date : Date
deriving DecidableEq, Repr

/-- Modelled from the spec: a per-item failure record `{scheduleId, reason}`
of the processing summary (spec 4.2). -/
structure Failure where
  scheduleId : Nat
  reason : String
deriving DecidableEq, Repr

/-- Modelled from the spec: the `ProcessingSummary` returned by `processDue`
(spec 4.2): `{ schedulesProcessed, transactionsCreated, failures }`. -/
structure Summary where
  schedulesProcessed : Nat
  transactionsCreated : Nat
  failures : List Failure
deriving DecidableEq, Repr

/-- Result of materializing one schedule's due occurrences. -/
structure MatResult where
  lastMaterialized : Option Date
  txs : List Tx
  failure : Option Failure
deriving DecidableEq, Repr

/-- The transaction row the collaborator creates for one occurrence of a
schedule (spec 4.2's collaborator call). -/
def mkTx (sch : Schedule) (d : Date) : Tx :=
  ⟨sch.id, sch.accountRef, sch.categoryRef, sch.amount, sch.payee, false, d⟩

/-- Reason recorded when the transaction-creation collaborator fails. -/
def creationFailedReason : String := "transaction creation failed"

/-- Modelled from the spec: materialize the due occurrence dates of one
schedule in order; on the first creation failure, abort this schedule only,
record a failure, and keep `lastMaterialized` at the last successfully
created occurrence (spec 4.2). The collaborator is abstracted as a predicate
`create scheduleId date` that says whether creation succeeds. -/
def materializeAll (create : Nat → Date → Bool) (sch : Schedule) :
    List Date → Option Date → MatResult
  | [], lm => ⟨lm, [], none⟩
  | d :: ds, lm =>
    if create sch.id d then
      let r := materializeAll create sch ds (some d)
      ⟨r.lastMaterialized, mkTx sch d :: r.txs, r.failure⟩
    else ⟨lm, [], some ⟨sch.id, creationFailedReason⟩⟩

/-- Modelled from the spec: recompute `nextExecutionDate` after
materialization — `nextOccurrence(lastMaterialized, frequency)` clamped to
none once past `endDate`, or `startDate` pre-first-run (spec 3 and 4.2). -/
def nextExecAfter (sch : Schedule) : Option Date → Option Date
  | none => some sch.startDate
  | some d =>
    match sch.endDate with
    | some e =>
      if Date.le (nextOccurrence d sch.frequency) e then
        some (nextOccurrence d sch.frequency)
      else none
    | none => some (nextOccurrence d sch.frequency)

/-- Result of processing one schedule. -/
structure SchedResult where
  schedule : Schedule
  txs : List Tx
  failure : Option Failure
deriving DecidableEq, Repr

/-- Modelled from the spec: process one active schedule — compute
`occurrencesDue`, materialize each date in order via the collaborator,
update the bookkeeping (spec 4.2). Inactive schedules are excluded. -/
def processSchedule (create : Nat → Date → Bool) (asOf : Date)
    (sch : Schedule) : SchedResult :=
  if sch.isActive then
    let r := materializeAll create sch
      (occurrencesDue sch.lastMaterialized sch.startDate sch.frequency
        sch.endDate asOf)
      sch.lastMaterialized
    ⟨{ sch with
        lastMaterialized := r.lastMaterialized
        nextExecutionDate := nextExecAfter sch r.lastMaterialized },
      r.txs, r.failure⟩
  else ⟨sch, [], none⟩

/-- Concatenation of per-schedule transaction lists. -/
def catTxs : List (List Tx) → List Tx
  | [] => []
  | l :: ls => l ++ catTxs ls

/-- Result of a whole `processDue` batch run. -/
structure ProcessResult where
  schedules : List Schedule
  txs : List Tx
  summary : Summary
deriving DecidableEq, Repr

/-- Modelled from the spec: `processDue(asOf)` (spec 4.2) — process every
active schedule, collect created transactions and per-item failures, and
return the updated schedules together with the `ProcessingSummary`.
Failures are collected, never raised. -/
def processDue (create : Nat → Date → Bool) (asOf : Date)
    (schs : List Schedule) : ProcessResult :=
  ⟨(schs.map (processSchedule create asOf)).map SchedResult.schedule,
   catTxs ((schs.map (processSchedule create asOf)).map SchedResult.txs),
   ⟨(schs.filter (fun s => s.isActive)).length,
    (catTxs ((schs.map (processSchedule create asOf)).map SchedResult.txs)).length,
    (schs.map (processSchedule create asOf)).filterMap SchedResult.failure⟩⟩

theorem catTxs_eq_nil {ls : List (List Tx)} (h : ∀ l ∈ ls, l = []) :
    catTxs ls = [] := by
  induction ls with
  | nil => rfl
  | cons l ls ih =>
    rw [catTxs, h l (List.mem_cons_self l ls), List.nil_append]
    exact ih (fun x hx => h x (List.mem_cons_of_mem l hx))

/-- A failure-free materialization created every date, and left
`lastMaterialized` at the final date (or untouched when nothing was due). -/
theorem materializeAll_success (create : Nat → Date → Bool) (sch : Schedule) :
    ∀ (ds : List Date) (lm : Option Date),
    (materializeAll create sch ds lm).failure = none →
    (materializeAll create sch ds lm).txs = ds.map (mkTx sch) ∧
    ((ds = [] ∧ (materializeAll create sch ds lm).lastMaterialized = lm) ∨
      (∃ l dlast, ds = l ++ [dlast] ∧
        (materializeAll create sch ds lm).lastMaterialized = some dlast)) := by
  intro ds
  induction ds with
  | nil => intro lm _; exact ⟨rfl, Or.inl ⟨rfl, rfl⟩⟩
  | cons d ds ih =>
    intro lm h
    by_cases hc : create sch.id d
    · rw [materializeAll, if_pos hc] at h ⊢
      dsimp only at h ⊢
      obtain ⟨htxs, hrest⟩ := ih (some d) h
      refine ⟨by rw [htxs, List.map_cons], ?_⟩
      rcases hrest with ⟨hnil, hlm⟩ | ⟨l, dlast, hds, hlm⟩
      · subst hnil
        exact Or.inr ⟨[], d, rfl, hlm⟩
      · subst hds
        exact Or.inr ⟨d :: l, dlast, rfl, hlm⟩
    · rw [materializeAll, if_neg hc] at h
      exact absurd h (by simp)

/-- The schedule parameters (everything except the bookkeeping fields) are
untouched by `processSchedule`. -/
theorem processSchedule_sched_fields (create : Nat → Date → Bool)
    (asOf : Date) (sch : Schedule) :
    (processSchedule create asOf sch).schedule.id = sch.id ∧
    (processSchedule create asOf sch).schedule.startDate = sch.startDate ∧
    (processSchedule create asOf sch).schedule.frequency = sch.frequency ∧
    (processSchedule create asOf sch).schedule.endDate = sch.endDate ∧
    (processSchedule create asOf sch).schedule.isActive = sch.isActive := by
  unfold processSchedule
  split <;> exact ⟨rfl, rfl, rfl, rfl, rfl⟩

theorem processSchedule_inactive {create : Nat → Date → Bool} {asOf : Date}
    {sch : Schedule} (h : ¬ sch.isActive = true) :
    processSchedule create asOf sch = ⟨sch, [], none⟩ := by
  unfold processSchedule
  rw [if_neg h]

theorem processSchedule_active_txs {create : Nat → Date → Bool} {asOf : Date}
    {sch : Schedule} (h : sch.isActive = true) :
    (processSchedule create asOf sch).txs
      = (materializeAll create sch
          (occurrencesDue sch.lastMaterialized sch.startDate sch.frequency
            sch.endDate asOf) sch.lastMaterialized).txs := by
  unfold processSchedule
  rw [if_pos h]

theorem processSchedule_active_failure {create : Nat → Date → Bool}
    {asOf : Date} {sch : Schedule} (h : sch.isActive = true) :
    (processSchedule create asOf sch).failure
      = (materializeAll create sch
          (occurrencesDue sch.lastMaterialized sch.startDate sch.frequency
            sch.endDate asOf) sch.lastMaterialized).failure := by
  unfold processSchedule
  rw [if_pos h]

theorem processSchedule_active_lm {create : Nat → Date → Bool} {asOf : Date}
    {sch : Schedule} (h : sch.isActive = true) :
    (processSchedule create asOf sch).schedule.lastMaterialized
      = (materializeAll create sch
          (occurrencesDue sch.lastMaterialized sch.startDate sch.frequency
            sch.endDate asOf) sch.lastMaterialized).lastMaterialized := by
  unfold processSchedule
  rw [if_pos h]

theorem processSchedule_active_nextExec {create : Nat → Date → Bool}
    {asOf : Date} {sch : Schedule} (h : sch.isActive = true) :
    (processSchedule create asOf sch).schedule.nextExecutionDate
      = nextExecAfter sch
          (materializeAll create sch
            (occurrencesDue sch.lastMaterialized sch.startDate sch.frequency
              sch.endDate asOf) sch.lastMaterialized).lastMaterialized := by
  unfold processSchedule
  rw [if_pos h]

/-- Processing a schedule is idempotent once it succeeds: after a
failure-free run, reprocessing the updated schedule with the same `asOf`
creates no transaction. -/
theorem processSchedule_idem (create : Nat → Date → Bool) {asOf : Date}
    (hAsOf : asOf.valid) (sch : Schedule) (hs : sch.startDate.valid)
    (hlm : ∀ d, sch.lastMaterialized = some d → d.valid)
    (hnofail : (processSchedule create asOf sch).failure = none) :
    (processSchedule create asOf
      (processSchedule create asOf sch).schedule).txs = [] := by
  obtain ⟨hid, hstart, hfreq, hend, hiso⟩ :=
    processSchedule_sched_fields create asOf sch
  by_cases hact : sch.isActive
  · rw [processSchedule_active_failure hact] at hnofail
    obtain ⟨htxs, hcase⟩ :=
      materializeAll_success create sch
        (occurrencesDue sch.lastMaterialized sch.startDate sch.frequency
          sch.endDate asOf)
        sch.lastMaterialized hnofail
    rw [processSchedule_active_txs (by rw [hiso]; exact hact)]
    rw [hstart, hfreq, hend, processSchedule_active_lm hact]
    rcases hcase with ⟨hnil, hlmeq⟩ | ⟨l, dlast, hshape, hlmeq⟩
    · rw [hlmeq, hnil]
      rfl
    · rw [hlmeq]
      rw [occurrencesDue_after_last hAsOf hs hlm hshape]
      rfl
  · rw [processSchedule_inactive hact]
    rw [processSchedule_inactive hact]

theorem processDue_schedules_eq (create : Nat → Date → Bool) (asOf : Date)
    (schs : List Schedule) :
    (processDue create asOf schs).schedules
      = schs.map (fun s => (processSchedule create asOf s).schedule) := by
  unfold processDue
  dsimp only
  rw [List.map_map]
  rfl

theorem processDue_txs_eq (create : Nat → Date → Bool) (asOf : Date)
    (schs : List Schedule) :
    (processDue create asOf schs).txs
      = catTxs (schs.map (fun s => (processSchedule create asOf s).txs)) := by
  unfold processDue
  dsimp only
  rw [List.map_map]
  rfl

theorem processDue_failures_eq (create : Nat → Date → Bool) (asOf : Date)
    (schs : List Schedule) :
    (processDue create asOf schs).summary.failures
      = (schs.map (processSchedule create asOf)).filterMap SchedResult.failure :=
  rfl

theorem processDue_count_eq (create : Nat → Date → Bool) (asOf : Date)
    (schs : List Schedule) :
    (processDue create asOf schs).summary.transactionsCreated
      = (processDue create asOf schs).txs.length :=
  rfl

/-- Claim C1: due-processing is idempotent — for every schedule state (with
real calendar dates) and reference time `asOf`, immediately after a
successful `processDue(asOf)` a second `processDue(asOf)` creates zero
additional transactions: no occurrence is materialized twice. -/
theorem c1_processDue_idempotent (create : Nat → Date → Bool) (asOf : Date)
    (schs : List Schedule) (hAsOf : asOf.valid)
    (hv : ∀ sch ∈ schs, sch.startDate.valid ∧
      ∀ d, sch.lastMaterialized = some d → d.valid)
    (hnofail : (processDue create asOf schs).summary.failures = []) :
    (processDue create asOf (processDue create asOf schs).schedules).txs = []
      ∧ (processDue create asOf
          (processDue create asOf schs).schedules).summary.transactionsCreated
        = 0 := by
  have hfail : ∀ sch ∈ schs, (processSchedule create asOf sch).failure = none := by
    intro sch hmem
    have h2 : (schs.map (processSchedule create asOf)).filterMap
        SchedResult.failure = [] := by
      rw [← processDue_failures_eq]
      exact hnofail
    rw [List.filterMap_eq_nil_iff] at h2
    exact h2 _ (List.mem_map_of_mem _ hmem)
  have hmain :
      (processDue create asOf (processDue create asOf schs).schedules).txs
        = [] := by
    rw [processDue_schedules_eq, processDue_txs_eq]
    apply catTxs_eq_nil
    intro l hl
    rw [List.map_map] at hl
    obtain ⟨sch, hmem, heq⟩ := List.mem_map.mp hl
    rw [← heq]
    exact processSchedule_idem create hAsOf sch (hv sch hmem).1
      (hv sch hmem).2 (hfail sch hmem)
  refine ⟨hmain, ?_⟩
  rw [processDue_count_eq, hmain]
  rfl

/-- Concrete collaborator for the C1 witness: creation always succeeds. -/
def wCreateOk : Nat → Date → Bool := fun _ _ => true

/-- Concrete schedule for the C1 witness: weekly from 2024-06-03, nothing
materialized yet, active, no end date. -/
def wSchedC1 : Schedule :=
  ⟨1, 50, "Gym", 10, 20, FrequencyType.weekly, ⟨2024, 6, 3⟩, none, none,
    some ⟨2024, 6, 3⟩, true⟩

theorem c1_processDue_idempotent_witness :
    (⟨2024, 6, 17⟩ : Date).valid ∧
    (∀ sch ∈ [wSchedC1], sch.startDate.valid ∧
      ∀ d, sch.lastMaterialized = some d → d.valid) ∧
    (processDue wCreateOk ⟨2024, 6, 17⟩ [wSchedC1]).summary.failures = [] ∧
    (processDue wCreateOk ⟨2024, 6, 17⟩
      (processDue wCreateOk ⟨2024, 6, 17⟩ [wSchedC1]).schedules).txs = [] :=
  ⟨by decide, by decide, by decide,
    (c1_processDue_idempotent wCreateOk ⟨2024, 6, 17⟩ [wSchedC1]
      (by decide) (by decide) (by decide)).1⟩

/-- Claim C2: catch-up correctness of `occurrencesDue` — from a fresh monthly
schedule anchored at 2024-01-01 and `asOf` 2024-04-15 it returns exactly the
four strictly increasing dates Jan 1, Feb 1, Mar 1, Apr 1; adding an
`endDate` of 2024-02-15 truncates the result to Jan 1, Feb 1. -/
theorem c2_occurrencesDue_catchup :
    occurrencesDue none ⟨2024, 1, 1⟩ FrequencyType.monthly none ⟨2024, 4, 15⟩
        = [⟨2024, 1, 1⟩, ⟨2024, 2, 1⟩, ⟨2024, 3, 1⟩, ⟨2024, 4, 1⟩] ∧
    List.Chain' Date.lt
        [(⟨2024, 1, 1⟩ : Date), ⟨2024, 2, 1⟩, ⟨2024, 3, 1⟩, ⟨2024, 4, 1⟩] ∧
    occurrencesDue none ⟨2024, 1, 1⟩ FrequencyType.monthly
        (some ⟨2024, 2, 15⟩) ⟨2024, 4, 15⟩
        = [⟨2024, 1, 1⟩, ⟨2024, 2, 1⟩] := by
  refine ⟨by decide, ?_, by decide⟩
  exact List.Chain.cons (by decide)
    (List.Chain.cons (by decide) (List.Chain.cons (by decide) List.Chain.nil))

/-- Claim C3: strict progress of the recurrence step — for every date and
every one of the six frequencies, `nextOccurrence(d, f)` is strictly after
`d`. -/
theorem c3_nextOccurrence_strict_progress (d : Date) (f : FrequencyType) :
    Date.lt d (nextOccurrence d f) :=
  Date.lt_next d f

/-- Claim C4: end-of-month clamping — advancing Jan 31 of any year by one
month yields the last day of February of that year (Feb 29 in leap years,
Feb 28 otherwise, never Mar 2/3), and advancing Feb 29 2024 by one year
yields Feb 28 2025. -/
theorem c4_nextOccurrence_clamping :
    (∀ y : Nat, nextOccurrence ⟨y, 1, 31⟩ FrequencyType.monthly
        = ⟨y, 2, if isLeapYear y then 29 else 28⟩) ∧
    nextOccurrence ⟨2023, 1, 31⟩ FrequencyType.monthly = ⟨2023, 2, 28⟩ ∧
    nextOccurrence ⟨2024, 1, 31⟩ FrequencyType.monthly = ⟨2024, 2, 29⟩ ∧
    nextOccurrence ⟨2024, 2, 29⟩ FrequencyType.yearly = ⟨2025, 2, 28⟩ := by
  refine ⟨?_, by decide, by decide, by decide⟩
  intro y
  show addMonths ⟨y, 1, 31⟩ 1 = _
  unfold addMonths daysInMonth
  dsimp only
  norm_num
  split <;> omega

/-- Last element of a date list, defaulting to the given bookkeeping value
when the list is empty. -/
def lastOr (lm : Option Date) : List Date → Option Date
  | [] => lm
  | d :: ds => lastOr (some d) ds

theorem lastOr_append (d : Date) : ∀ (l : List Date) (lm : Option Date),
    lastOr lm (l ++ [d]) = some d
  | [], _ => rfl
  | _ :: l, _ => lastOr_append d l _

/-- A materialization that hits a failing occurrence creates exactly the
occurrences before it, records the failure, and leaves the bookkeeping at
the last successfully created occurrence. -/
theorem materializeAll_partial (create : Nat → Date → Bool) (sch : Schedule)
    {dbad : Date} (post : List Date) (hbad : create sch.id dbad = false) :
    ∀ (pre : List Date) (lm : Option Date),
    (∀ d ∈ pre, create sch.id d = true) →
    materializeAll create sch (pre ++ dbad :: post) lm
      = ⟨lastOr lm pre, pre.map (mkTx sch),
          some ⟨sch.id, creationFailedReason⟩⟩ := by
  intro pre
  induction pre with
  | nil =>
    intro lm _
    rw [List.nil_append, materializeAll, if_neg (by rw [hbad]; simp)]
    rfl
  | cons d pre ih =>
    intro lm hpre
    rw [List.cons_append, materializeAll,
      if_pos (hpre d (List.mem_cons_self d pre))]
    dsimp only
    rw [ih (some d) (fun x hx => hpre x (List.mem_cons_of_mem d hx))]
    rfl

/-- Claim C5: partial-failure isolation of `processDue` — when creating the
transaction for some occurrence of a schedule fails, processing aborts
further occurrences of that schedule only, a per-item failure carrying the
schedule's id and a reason is recorded, only the occurrences before the
failure are materialized, the bookkeeping stays at the last successfully
created occurrence, and the batch as a whole still returns (each schedule's
outcome is independent and failures are collected, not raised). -/
theorem c5_processDue_partial_failure (create : Nat → Date → Bool)
    (asOf : Date) (sch : Schedule) (pre post : List Date) (dbad : Date)
    (hact : sch.isActive = true)
    (hdates : occurrencesDue sch.lastMaterialized sch.startDate sch.frequency
      sch.endDate asOf = pre ++ dbad :: post)
    (hpre : ∀ d ∈ pre, create sch.id d = true)
    (hbad : create sch.id dbad = false) :
    (processSchedule create asOf sch).failure
        = some ⟨sch.id, creationFailedReason⟩ ∧
    (processSchedule create asOf sch).txs = pre.map (mkTx sch) ∧
    (pre = [] → (processSchedule create asOf sch).schedule.lastMaterialized
        = sch.lastMaterialized) ∧
    (∀ l dl, pre = l ++ [dl] →
      (processSchedule create asOf sch).schedule.lastMaterialized = some dl) ∧
    (processSchedule create asOf sch).schedule.nextExecutionDate
        = nextExecAfter sch
            (processSchedule create asOf sch).schedule.lastMaterialized ∧
    (∀ schs : List Schedule, sch ∈ schs →
      (⟨sch.id, creationFailedReason⟩ : Failure)
        ∈ (processDue create asOf schs).summary.failures) ∧
    (∀ schs : List Schedule, (processDue create asOf schs).schedules
        = schs.map (fun s => (processSchedule create asOf s).schedule)) := by
  have hm := materializeAll_partial create sch post hbad pre
    sch.lastMaterialized hpre
  have hfail : (processSchedule create asOf sch).failure
      = some ⟨sch.id, creationFailedReason⟩ := by
    rw [processSchedule_active_failure hact, hdates, hm]
  refine ⟨hfail, ?_, ?_, ?_, ?_, ?_, ?_⟩
  · rw [processSchedule_active_txs hact, hdates, hm]
  · intro hnil
    rw [processSchedule_active_lm hact, hdates, hm]
    subst hnil
    rfl
  · intro l dl hl
    rw [processSchedule_active_lm hact, hdates, hm]
    subst hl
    exact lastOr_append dl l _
  · rw [processSchedule_active_nextExec hact, processSchedule_active_lm hact]
  · intro schs hmem
    rw [processDue_failures_eq]
    exact List.mem_filterMap.mpr
      ⟨processSchedule create asOf sch, List.mem_map_of_mem _ hmem, hfail⟩
  · intro schs
    exact processDue_schedules_eq create asOf schs

/-- Concrete collaborator for the C5 witness: creation fails exactly on
2024-01-08. -/
def wCreateC5 : Nat → Date → Bool := fun _ d => decide (d ≠ ⟨2024, 1, 8⟩)

/-- Concrete schedule for the C5 witness: weekly from 2024-01-01, nothing
materialized yet, active, no end date. -/
def wSchedC5 : Schedule :=
  ⟨7, 100, "Rent", 1, 2, FrequencyType.weekly, ⟨2024, 1, 1⟩, none, none,
    some ⟨2024, 1, 1⟩, true⟩

theorem c5_processDue_partial_failure_witness :
    occurrencesDue wSchedC5.lastMaterialized wSchedC5.startDate
        wSchedC5.frequency wSchedC5.endDate ⟨2024, 1, 15⟩
      = [⟨2024, 1, 1⟩] ++ ⟨2024, 1, 8⟩ :: [⟨2024, 1, 15⟩] ∧
    (processSchedule wCreateC5 ⟨2024, 1, 15⟩ wSchedC5).failure
      = some ⟨7, creationFailedReason⟩ :=
  ⟨by decide,
    (c5_processDue_partial_failure wCreateC5 ⟨2024, 1, 15⟩ wSchedC5
      [⟨2024, 1, 1⟩] [⟨2024, 1, 15⟩] ⟨2024, 1, 8⟩ (by decide) (by decide)
      (by decide) (by decide)).1⟩

/-- The `RecurringTransactionUpdate` form payload, embedded from
`src/frontend/src/types/recurringTransaction.ts` (all fields optional);
decimal amounts are modelled as integers — only zero-tests matter here.
Date fields are the ISO strings the form stores. -/
structure RecurringTransactionUpdate where
  amount : Option Int
  payee : Option String
  notes : Option String
  frequency : Option FrequencyType
  start_date : Option String
  end_date : Option String
  is_income : Option Bool
  account_id : Option String
  category_id : Option String
  is_active : Option Bool
deriving DecidableEq, Repr

/-- The `RecurringTransactionCreate` payload, embedded from
`src/frontend/src/types/recurringTransaction.ts` (required fields). -/
structure RecurringTransactionCreate where
  amount : Int
  payee : String
  notes : String
  frequency : FrequencyType
  start_date : String
  end_date : Option String
  is_income : Bool
  account_id : String
  category_id : String
deriving DecidableEq, Repr

/-- A string is blank when every character is whitespace — the model of the
source's falsy `payee?.trim()` check. -/
def strBlank (s : String) : Bool :=
  s.data.all (fun c => c = ' ' ∨ c = '\t' ∨ c = '\n' ∨ c = '\r')

/-- Validation performed by `EditRecurringTransactionDialog.handleSubmit`
(the recurring-transaction edit dialog component): in order, it rejects an
empty/whitespace payee, a missing or zero amount, a missing account id and a
missing category id; `none` means the form is submitted. No other check is
performed. -/
def editRecurringValidationError (fd : RecurringTransactionUpdate) :
    Option String :=
  if strBlank (fd.payee.getD "") then some "Payee is required"
  else if fd.amount.getD 0 = 0 then some "Amount must be greater than 0"
  else if fd.account_id.getD "" = "" then some "Account is required"
  else if fd.category_id.getD "" = "" then some "Category is required"
  else none

/-- The edit dialog submits exactly when its validation finds no error. -/
def editDialogSubmits (fd : RecurringTransactionUpdate) : Bool :=
  (editRecurringValidationError fd).isNone

/-- `handleSubmit` of the recurring-transaction form on
`src/frontend/src/pages/BudgetsPage.tsx` performs no validation of its own:
it always submits the form data to the service. -/
def budgetsPageSubmits (_fd : RecurringTransactionCreate) : Bool :=
  true

/-- Concrete form submission whose date range is inverted
(end_date strictly before start_date), with all validated fields present. -/
def badRangeForm : RecurringTransactionUpdate :=
  ⟨some 100, some "Rent", none, some FrequencyType.monthly,
    some "2024-05-01", some "2024-01-01", some false, some "acct-1",
    some "cat-1", some true⟩

/-- Claim C6 counterexample: a create/update submission with both dates
present and end_date (the ISO string of 2024-01-01) strictly before
start_date (2024-05-01) passes the edit dialog's validation and is
submitted — it is not rejected as a validation error. -/
theorem c6_counterexample :
    badRangeForm.start_date = some "2024-05-01" ∧
    badRangeForm.end_date = some "2024-01-01" ∧
    Date.lt ⟨2024, 1, 1⟩ ⟨2024, 5, 1⟩ ∧
    editRecurringValidationError badRangeForm = none ∧
    editDialogSubmits badRangeForm = true := by
  refine ⟨rfl, rfl, by decide, by decide, by decide⟩

/-- Claim C6 (amended): the frontend create/update handlers perform no
date-range validation — the edit dialog's validation outcome is independent
of `start_date` and `end_date` (it checks only payee, amount, account and
category), and the BudgetsPage create/update handler submits
unconditionally. Inputs with end_date ≤ start_date are therefore submitted,
not rejected. -/
theorem c6_no_date_range_validation :
    (∀ (fd : RecurringTransactionUpdate) (s e : Option String),
      editRecurringValidationError
          { fd with start_date := s, end_date := e }
        = editRecurringValidationError fd) ∧
    (∀ fd : RecurringTransactionUpdate,
      editDialogSubmits fd = true ↔
        (¬ strBlank (fd.payee.getD "") = true ∧ fd.amount.getD 0 ≠ 0 ∧
          fd.account_id.getD "" ≠ "" ∧ fd.category_id.getD "" ≠ "")) ∧
    (∀ fd : RecurringTransactionCreate, budgetsPageSubmits fd = true) := by
  refine ⟨fun fd s e => rfl, fun fd => ?_, fun fd => rfl⟩
  unfold editDialogSubmits editRecurringValidationError
  by_cases h1 : strBlank (fd.payee.getD "") = true <;>
    by_cases h2 : fd.amount.getD 0 = 0 <;>
      by_cases h3 : fd.account_id.getD "" = "" <;>
        by_cases h4 : fd.category_id.getD "" = "" <;>
          simp [h1, h2, h3, h4]

/-- The `Frequency` enum embedded from `src/frontend/src/types/index.ts`
(lines 71-76): it declares only the four members DAILY, WEEKLY, MONTHLY,
YEARLY. -/
inductive Frequency
  | daily
  | weekly
  | monthly
  | yearly
deriving DecidableEq, Repr

/-- String value of each `Frequency` enum member, as declared in
`src/frontend/src/types/index.ts`. -/
def Frequency.value : Frequency → String
  | .daily => "daily"
  | .weekly => "weekly"
  | .monthly => "monthly"
  | .yearly => "yearly"

/-- All members of the `Frequency` enum of `types/index.ts`. -/
def Frequency.all : List Frequency :=
  [.daily, .weekly, .monthly, .yearly]

/-- All members of the `FrequencyType` enum of
`types/recurringTransaction.ts`. -/
def FrequencyType.all : List FrequencyType :=
  [.daily, .weekly, .biweekly, .monthly, .quarterly, .yearly]

/-- The `FREQUENCY_LABELS` record of `types/recurringTransaction.ts`, which
drives the frequency select menus of the recurring-transaction forms. -/
def FREQUENCY_LABELS : FrequencyType → String
  | .daily => "Daily"
  | .weekly => "Weekly"
  | .biweekly => "Bi-weekly"
  | .monthly => "Monthly"
  | .quarterly => "Quarterly"
  | .yearly => "Yearly"

/-- Claim C7 counterexample: not every frequency type in the program admits
the six-value set — the `Frequency` enum of `types/index.ts` is exhausted by
its four members, none of which carries the value "biweekly" (or
"quarterly"), while `FrequencyType` does admit "biweekly". -/
theorem c7_counterexample :
    "biweekly" ∈ FrequencyType.all.map FrequencyType.value ∧
    "biweekly" ∉ Frequency.all.map Frequency.value ∧
    "quarterly" ∉ Frequency.all.map Frequency.value ∧
    (∀ g : Frequency, g ∈ Frequency.all) := by
  refine ⟨by decide, by decide, by decide, fun g => ?_⟩
  cases g <;> decide

/-- Claim C7 (amended): the scheduling type module's `FrequencyType` (and
the `FREQUENCY_LABELS`-driven frequency selects of the recurring-transaction
forms) admit exactly the six values daily, weekly, biweekly, monthly,
quarterly, yearly; the legacy `Frequency` enum in `types/index.ts` admits
only the four values daily, weekly, monthly, yearly. -/
theorem c7_frequency_domains :
    (∀ f : FrequencyType, f ∈ FrequencyType.all) ∧
    FrequencyType.all.map FrequencyType.value
      = ["daily", "weekly", "biweekly", "monthly", "quarterly", "yearly"] ∧
    FrequencyType.all.map FREQUENCY_LABELS
      = ["Daily", "Weekly", "Bi-weekly", "Monthly", "Quarterly", "Yearly"] ∧
    (∀ g : Frequency, g ∈ Frequency.all) ∧
    Frequency.all.map Frequency.value
      = ["daily", "weekly", "monthly", "yearly"] := by
  refine ⟨fun f => ?_, by decide, by decide, fun g => ?_, by decide⟩
  · cases f <;> decide
  · cases g <;> decide

/-- The response type of `processDueRecurringTransactions` in
`src/frontend/src/services/recurringTransactionService.ts` (line 58):
`{ message: string; count: number }`. -/
structure ProcessDueResponse where
  message : String
  count : Nat
deriving DecidableEq, Repr

/-- The field names of the declared `process-due` response type, in
declaration order. -/
def processDueResponseFields : List String :=
  ["message", "count"]

/-- Claim C8 counterexample: the due-processing operation exposed to callers
(`processDueRecurringTransactions`) is declared to return
`{ message, count }` — none of the fields `schedulesProcessed`,
`transactionsCreated` or `failures` appears in its response type. -/
theorem c8_counterexample :
    "schedulesProcessed" ∉ processDueResponseFields ∧
    "transactionsCreated" ∉ processDueResponseFields ∧
    "failures" ∉ processDueResponseFields := by
  refine ⟨by decide, by decide, by decide⟩

/-- Claim C8 (amended): the due-processing operation exposed to callers
returns a summary with exactly the fields `message` and `count`. -/
theorem c8_processDue_response_shape :
    processDueResponseFields = ["message", "count"] :=
  rfl

/-- The browser `localStorage`, modelled as a partial map from keys to
string values. -/
def LocalStorage : Type := String → Option String

/-- `localStorage.setItem(key, value)`. -/
def setItem (key value : String) (s : LocalStorage) : LocalStorage :=
  fun k => if k = key then some value else s k

/-- `localStorage.removeItem(key)`. -/
def removeItem (key : String) (s : LocalStorage) : LocalStorage :=
  fun k => if k = key then none else s k

/-- `localStorage.getItem(key)`. -/
def getItem (key : String) (s : LocalStorage) : Option String :=
  s key

/-- `authService.saveToken` (`src/frontend/src/services/authService.ts`):
writes the key `access_token`. -/
def authSaveToken (t : String) (s : LocalStorage) : LocalStorage :=
  setItem "access_token" t s

/-- `authService.getToken`: reads the key `access_token`. -/
def authGetToken (s : LocalStorage) : Option String :=
  getItem "access_token" s

/-- `authService.removeToken`: removes the key `access_token`. -/
def authRemoveToken (s : LocalStorage) : LocalStorage :=
  removeItem "access_token" s

/-- `authService.isAuthenticated`: truthiness of the `access_token` entry. -/
def authIsAuthenticated (s : LocalStorage) : Bool :=
  (getItem "access_token" s).isSome

/-- `ApiService.getToken` (`src/frontend/src/services/api.ts`): reads the
key `auth_token`. -/
def apiGetToken (s : LocalStorage) : Option String :=
  getItem "auth_token" s

/-- `ApiService.setToken`: writes the key `auth_token`. -/
def apiSetToken (t : String) (s : LocalStorage) : LocalStorage :=
  setItem "auth_token" t s

/-- `ApiService.removeToken`: removes the key `auth_token`. -/
def apiRemoveToken (s : LocalStorage) : LocalStorage :=
  removeItem "auth_token" s

/-- `apiService.isAuthenticated`: `getToken() !== null`. -/
def apiIsAuthenticated (s : LocalStorage) : Bool :=
  (apiGetToken s).isSome

/-- The Authorization header attached by the `ApiService` request
interceptor: `Bearer` plus the `auth_token` entry when present. -/
def apiAuthHeader (s : LocalStorage) : Option String :=
  (apiGetToken s).map (fun t => "Bearer " ++ t)

theorem getItem_setItem_ne {k key : String} (h : k ≠ key) (v : String)
    (s : LocalStorage) : getItem k (setItem key v s) = getItem k s := by
  unfold getItem setItem
  rw [if_neg h]

theorem getItem_removeItem_ne {k key : String} (h : k ≠ key)
    (s : LocalStorage) : getItem k (removeItem key s) = getItem k s := by
  unfold getItem removeItem
  rw [if_neg h]

/-- Claim C9: the two API clients use disjoint credential stores —
`authService` touches only the localStorage key `access_token` and
`ApiService` only `auth_token`, so for every localStorage state each
service's writes (save/set and remove) leave the other service's
`getToken`, `isAuthenticated` and attached Authorization header
unchanged. -/
theorem c9_token_stores_disjoint (s : LocalStorage) (t : String) :
    apiGetToken (authSaveToken t s) = apiGetToken s ∧
    apiIsAuthenticated (authSaveToken t s) = apiIsAuthenticated s ∧
    apiAuthHeader (authSaveToken t s) = apiAuthHeader s ∧
    apiGetToken (authRemoveToken s) = apiGetToken s ∧
    authGetToken (apiSetToken t s) = authGetToken s ∧
    authIsAuthenticated (apiSetToken t s) = authIsAuthenticated s ∧
    authGetToken (apiRemoveToken s) = authGetToken s := by
  have hne : ("auth_token" : String) ≠ "access_token" := by decide
  have hne2 : ("access_token" : String) ≠ "auth_token" := by decide
  have h1 : apiGetToken (authSaveToken t s) = apiGetToken s :=
    getItem_setItem_ne hne t s
  have h2 : authGetToken (apiSetToken t s) = authGetToken s :=
    getItem_setItem_ne hne2 t s
  refine ⟨h1, ?_, ?_, ?_, h2, ?_, ?_⟩
  · unfold apiIsAuthenticated
    rw [h1]
  · unfold apiAuthHeader
    rw [h1]
  · exact getItem_removeItem_ne hne s
  · unfold authIsAuthenticated authGetToken at *
    rw [h2]
  · exact getItem_removeItem_ne hne2 s

/-- The steps `TransactionsPage.initializeData` runs on mount, in order. -/
inductive InitStep
  | processDue
  | loadFilterData
  | loadTransactions
  | loadRecurringTransactions
deriving DecidableEq, Repr

/-- The page state touched by due-processing on mount: the user-visible
error banner and the count of console-only error logs. -/
structure PageState where
  error : String
  consoleErrorCount : Nat
deriving DecidableEq, Repr

/-- `processDueRecurringTransactions` of
`src/frontend/src/pages/TransactionsPage.tsx`: the service call (whose
outcome is the `result` parameter) is wrapped in try/catch; a rejection is
only logged to the console — the page error state is never written. -/
def pageProcessDue (result : Except String Unit) (st : PageState) :
    PageState :=
  match result with
  | .ok _ => st
  | .error _ => { st with consoleErrorCount := st.consoleErrorCount + 1 }

/-- `initializeData` of `TransactionsPage`: awaits the process-due call
first, then invokes the three data loads. Returns the state after the
process-due step together with the ordered step trace. -/
def initializeData (result : Except String Unit) (st : PageState) :
    PageState × List InitStep :=
  (pageProcessDue result st,
   [InitStep.processDue, InitStep.loadFilterData, InitStep.loadTransactions,
    InitStep.loadRecurringTransactions])

/-- Claim C10: on TransactionsPage initialization the process-due call is
awaited before any data load, and whatever its outcome — including a
rejection — the error is swallowed inside `processDueRecurringTransactions`
(only a console log is emitted), the page error state is untouched, and all
three data loads still run. -/
theorem c10_transactions_page_init (result : Except String Unit)
    (st : PageState) :
    (initializeData result st).2
      = [InitStep.processDue, InitStep.loadFilterData,
          InitStep.loadTransactions, InitStep.loadRecurringTransactions] ∧
    (initializeData result st).1.error = st.error := by
  refine ⟨rfl, ?_⟩
  unfold initializeData pageProcessDue
  cases result <;> rfl
